import Mathlib

/-!
Shallow embedding of the fin-scenario-map historical-matching core and workflow
orchestrator.  Python module functions are translated into executable Lean
definitions; module-level mutable globals become explicit state records threaded
through the functions; external collaborators (Groq API, sentence-transformers,
ChromaDB client, sklearn TF-IDF, the system clock) become oracle parameters.
Machine floats are idealized as rationals; `math.sqrt` (irrational in general)
is passed as an oracle so that all definitions stay executable.
-/

/-! ### Python-style helpers -/

/-- Python `x or d` for strings: the empty string is falsy. -/
def pyOrStr (x d : String) : String := if x = "" then d else x

/-- Python `opt.get(...) or d` where the value may be missing (`None`) or empty. -/
def pyOrStrOpt (x : Option String) (d : String) : String :=
  match x with
  | none => d
  | some s => if s = "" then d else s

/-- Python `x or d` for numbers: `0.0` is falsy. -/
def pyOrQ (x d : ℚ) : ℚ := if x = 0 then d else x

/-- Python `s.strip()` (whitespace trim), computed over the character list so
that it evaluates by kernel reduction. -/
def pyStrip (s : String) : String :=
  String.mk (((s.toList.dropWhile Char.isWhitespace).reverse.dropWhile
    Char.isWhitespace).reverse)

/-- Python slicing `s[:n]` (a code-point prefix). -/
def strTake (s : String) (n : ℕ) : String := String.mk (s.toList.take n)

/-- Code-point length of a string. -/
def strLen (s : String) : ℕ := s.toList.length

/-- Collapse every run of whitespace to a single blank, as `re.sub(r"\s+", " ", s)`.
The boolean flag records whether the previous character was whitespace. -/
def collapseWsAux : List Char → Bool → List Char
  | [], _ => []
  | c :: cs, pw =>
      if c.isWhitespace then
        if pw then collapseWsAux cs true else ' ' :: collapseWsAux cs true
      else c :: collapseWsAux cs false

def collapseWs (s : String) : String := String.mk (collapseWsAux s.toList false)

/-- `historical_matcher._truncate`: strip, collapse whitespace, cut at `maxChars`. -/
def truncate_text (s : String) (maxChars : ℕ) : String :=
  let t := collapseWs (pyStrip s)
  if maxChars < strLen t then strTake t maxChars else t

/-- Python 3 `round` on an exact rational: round half to even. -/
def pyRound (q : ℚ) : ℤ :=
  let f := ⌊q⌋
  let r := q - (f : ℚ)
  if r < 1/2 then f
  else if 1/2 < r then f + 1
  else if f % 2 = 0 then f else f + 1

/-- `max(0, min(100, int(round(score * 100))))`. -/
def pctOfScore (s : ℚ) : ℤ := max 0 (min 100 (pyRound (s * 100)))

/-- The percentage string `f"{score_pct}%"`. -/
def percentStr (n : ℤ) : String := toString n ++ "%"

/-- A ranked match `{"id": ..., "name": ..., "similarity": "87%"}`. -/
structure MatchResult where
  id : String
  name : String
  similarity : String
deriving DecidableEq, Repr

/-! ### `chroma_store.sync_collection` (claim C2)

The persistent store is `Option Collection`: `none` means the collection does
not exist.  The Chroma client's failure modes are oracle flags: `deleteFails`
(the `delete_collection` call raises even though a collection exists),
`createFails` (the `create_collection` call raises), `addFails` (the bulk
`coll.add` raises). -/

abbrev Collection := List (String × List ℚ × Option String)

structure ChromaSyncEnv where
  deleteFails : Bool
  createFails : Bool
  addFails : Bool

/-- `chroma_store.sync_collection`: validate arguments, delete the old
collection (exceptions swallowed), recreate it, bulk-insert.  Returns the
success boolean and the resulting store state. -/
def sync_collection (env : ChromaSyncEnv) (store : Option Collection)
    (ids : List String) (embeddings : List (List ℚ)) (metadatas : List (Option String)) :
    Bool × Option Collection :=
  if ids = [] ∨ ids.length ≠ embeddings.length ∨ ids.length ≠ metadatas.length then
    (false, store)
  else
    -- delete_collection: wrapped in try/except, so a failure leaves the store as is
    let store1 : Option Collection := if env.deleteFails then store else none
    -- create_collection raises if a collection of that name still exists
    if store1.isSome ∨ env.createFails then (false, store1)
    else if env.addFails then
      -- the collection was already deleted and recreated empty before add raised
      (false, some [])
    else
      (true, some (ids.zip (embeddings.zip metadatas)))

/-! ### `embeddings_hf` (claims C3, C7)

A loaded sentence-transformers model is an oracle with a single-text encoder and
a batch encoder; `none` from either encoder models a raised exception or a
non-2d/ill-shaped ndarray.  The module global `_model` becomes an explicit
`Option Model` state; the outcome of a fresh `SentenceTransformer(...)` load is
the oracle argument `load` (`none` = the constructor raised). -/

structure Model where
  encodeOne : String → Option (List ℚ)
  encodeMany : List String → Option (List (List ℚ))

/-- `embeddings_hf._get_model`: memoize the model; on a failed load `_model`
stays `None`.  Returns (result, new `_model` state). -/
def get_model_hf (load : Option Model) (st : Option Model) : Option Model × Option Model :=
  match st with
  | some m => (some m, some m)
  | none => (load, load)

/-- `t.strip() or " "` applied to each input text. -/
def normText (t : String) : String := pyOrStr (pyStrip t) " "

/-- `embeddings_hf.get_embedding_hf`. -/
def get_embedding_hf (load : Option Model) (st : Option Model) (text : String) :
    Option (List ℚ) × Option Model :=
  let t := normText text
  let (m?, st') := get_model_hf load st
  match m? with
  | none => (none, st')
  | some m => (m.encodeOne t, st')

/-- `embeddings_hf.get_embeddings_batch_hf`: `None` for an empty input, else
encode the stripped texts; the result is kept only when the returned array has
exactly one row per input. -/
def get_embeddings_batch_hf (load : Option Model) (st : Option Model) (texts : List String) :
    Option (List (List ℚ)) × Option Model :=
  if texts = [] then (none, st)
  else
    let ts := texts.map normText
    let (m?, st') := get_model_hf load st
    match m? with
    | none => (none, st')
    | some m =>
        match m.encodeMany ts with
        | none => (none, st')
        | some vs => (if vs.length = ts.length then some vs else none, st')

/-! ### `embeddings.get_embeddings_batch` (claim C3)

The Groq embeddings endpoint is the oracle
`api : List String → Option (List (Option (List ℚ)))`: `none` models a raised
exception for that chunk (which aborts the whole call), `some items` models a
response whose `data` entries each may or may not carry an `embedding`. -/

/-- One pass of `for i in range(0, len(texts), batch_size)`.  The fuel is the
remaining list length; `batch_size = 0` exhausts the fuel and yields `none`,
matching the `ValueError` of `range(0, n, 0)` being caught as overall `None`. -/
def groq_batch_loop (api : List String → Option (List (Option (List ℚ)))) (bs : ℕ) :
    ℕ → List String → Option (List (List ℚ))
  | _, [] => some []
  | 0, _ :: _ => none
  | fuel + 1, t :: ts =>
      let chunk := ((t :: ts).take bs).map normText
      match api chunk with
      | none => none
      | some items =>
          match groq_batch_loop api bs fuel ((t :: ts).drop bs) with
          | none => none
          | some rest => some (items.filterMap id ++ rest)

/-- `embeddings.get_embeddings_batch`: `None` when the key is blank or the text
list empty; otherwise embed chunk by chunk and return the collected vectors only
when there is exactly one per input. -/
def get_embeddings_batch (api : List String → Option (List (Option (List ℚ))))
    (texts : List String) (api_key : String) (batch_size : ℕ) : Option (List (List ℚ)) :=
  if pyStrip api_key = "" ∨ texts = [] then none
  else
    match groq_batch_loop api batch_size texts.length texts with
    | none => none
    | some out => if out.length = texts.length then some out else none

/-! ### `chroma_store.query_similar` (claim C1, chroma tier)

The persistent collection is an oracle with a document count and a `query`
method returning `{ids, metadatas, distances}` (one inner list per query
embedding, as Chroma does).  An inner-list metadata entry is the optional
`"name"` value. -/

structure ChromaRes where
  ids : List (List String)
  metadatas : List (List (Option String))
  distances : List (List ℚ)

structure ChromaColl where
  count : ℕ
  query : ℕ → ChromaRes

/-- The `for i, doc_id in enumerate(ids[0])` loop.  `d0 = none` models falsy
`distances` (default distance `1.0`); with `d0 = some ds` an out-of-range
index is an `IndexError`, i.e. overall `none`. -/
def chroma_rows (d0 : Option (List ℚ)) (metas0 : List (Option String)) :
    List String → ℕ → Option (List MatchResult)
  | [], _ => some []
  | docId :: rest, i =>
      let dOpt : Option ℚ := match d0 with
        | none => some 1
        | some ds => ds.get? i
      match dOpt with
      | none => none
      | some dist =>
          let similarity := max 0 (min 1 (1 - dist))
          let pct := pctOfScore similarity
          let meta : Option String := (metas0.get? i).getD none
          let nm := pyOrStr (pyStrip (pyOrStrOpt meta docId)) "—"
          match chroma_rows d0 metas0 rest (i + 1) with
          | none => none
          | some tail => some (⟨docId, nm, percentStr pct⟩ :: tail)

/-- `chroma_store.query_similar`. -/
def query_similar (coll : ChromaColl) (query_embedding : List ℚ) (n_results : ℕ) :
    List MatchResult :=
  if query_embedding = [] ∨ n_results = 0 then []
  else if coll.count = 0 then []
  else
    let res := coll.query (min n_results coll.count)
    match res.ids.head? with
    | none => []
    | some ids0 =>
        if ids0 = [] then []
        else
          let metas0 := (res.metadatas.head?).getD []
          let d0 : Option (List ℚ) :=
            match res.distances.head? with
            | some (d :: ds) => some (d :: ds)
            | _ => none
          (chroma_rows d0 metas0 ids0 0).getD []

/-! ### `historical_matcher` (claims C1, C5, C6, C9)

Module globals become `MatcherState`; external collaborators become
`MatcherEnv` oracles.  `_vectorizer`/`_corpus_matrix` are collapsed into one
`tfidf : Option (String → List ℚ)` returning the cosine-similarity row of a
query against the fitted corpus matrix (they are always set together). -/

structure DocMeta where
  id : String
  name : String
  text : String
deriving DecidableEq, Repr

structure JsonRaw where
  id : Option String
  name : Option String
  text : Option String

structure MatcherEnv where
  sqrt : ℚ → ℚ
  groqKey : String
  refDocs : List DocMeta
  userDocs : List DocMeta
  jsonRaw : Option (List (Option JsonRaw))
  groqBatch : List String → Option (List (List ℚ))
  hfBatch : List String → Option (List (List ℚ))
  syncOK : List String → List (List ℚ) → Bool
  tfidfFit : List String → Option (String → List ℚ)
  embedGroq : String → String → Option (List ℚ)
  embedHF : String → Option (List ℚ)
  chroma : ChromaColl

structure MatcherState where
  loaded : Bool
  corpus_meta : List DocMeta
  corpus_embeddings : Option (List (List ℚ))
  use_vector_path : Bool
  use_chroma : Bool
  vector_backend : String
  groq_api_key : String
  tfidf : Option (String → List ℚ)

/-- Zero-pad a number to three digits, as `f"{n:03d}"`. -/
def pad3 (n : ℕ) : String :=
  if n < 10 then "00" ++ toString n
  else if n < 100 then "0" ++ toString n else toString n

/-- The JSON-file corpus build: ids default to `HC-{i+1:03d}`, names to
`Case {i+1}`, texts are truncated with `" "` as last resort; non-dict entries
are skipped but still advance the enumerate index. -/
def buildJson : List (Option JsonRaw) → ℕ → List String × List DocMeta
  | [], _ => ([], [])
  | none :: rest, i => buildJson rest (i + 1)
  | some d :: rest, i =>
      let docId := pyOrStrOpt d.id ("HC-" ++ pad3 (i + 1))
      let nm := pyOrStr (pyStrip (pyOrStrOpt d.name "")) ("Case " ++ toString (i + 1))
      let txt := pyOrStr (truncate_text (pyOrStrOpt d.text "") 5000) " "
      let (ts, ms) := buildJson rest (i + 1)
      (txt :: ts, ⟨docId, nm, txt⟩ :: ms)

/-- The body of `historical_matcher._load_documents` past the `_loaded` guard:
reset the globals, assemble the corpus, then pick the tier
(Groq→Chroma, HF→Chroma, TF-IDF); a raise in TF-IDF fitting hits the outer
`except`, which clears the index state. -/
def load_compute (env : MatcherEnv) (st : MatcherState) : MatcherState :=
  let key := pyStrip env.groqKey
  let base : MatcherState :=
    { st with loaded := true, corpus_meta := [], corpus_embeddings := none,
              use_vector_path := false, use_chroma := false,
              vector_backend := "", groq_api_key := key }
  let db := env.refDocs ++ env.userDocs
  let tm : List String × List DocMeta :=
    if db ≠ [] then (db.map (·.text), db)
    else match env.jsonRaw with
      | none => ([], [])
      | some raws => buildJson raws 0
  if tm.2 = [] ∨ tm.1 = [] then base
  else
    let withMeta := { base with corpus_meta := tm.2 }
    let ids := tm.2.map (·.id)
    let tfidfPhase : MatcherState :=
      match env.tfidfFit tm.1 with
      | some f => { withMeta with tfidf := some f }
      | none => { withMeta with corpus_meta := [], tfidf := none }
    let hfPhase : MatcherState :=
      match env.hfBatch tm.1 with
      | some embs =>
          if embs.length = tm.2.length then
            if env.syncOK ids embs then
              { withMeta with use_vector_path := true, use_chroma := true,
                              vector_backend := "hf" }
            else tfidfPhase
          else tfidfPhase
      | none => tfidfPhase
    if key ≠ "" then
      match env.groqBatch tm.1 with
      | some embs =>
          if embs.length = tm.2.length then
            if env.syncOK ids embs then
              { withMeta with use_vector_path := true, use_chroma := true,
                              vector_backend := "groq" }
            else hfPhase
          else hfPhase
      | none => hfPhase
    else hfPhase

/-- `historical_matcher._load_documents`: a no-op once `_loaded` is set. -/
def load_documents (env : MatcherEnv) (st : MatcherState) : MatcherState :=
  if st.loaded then st else load_compute env st

/-- `historical_matcher.get_vector_store_status` (the status part). -/
def matcher_status (st : MatcherState) : String × String :=
  if st.use_vector_path ∧ st.use_chroma then ("chromadb", pyOrStr st.vector_backend "—")
  else if st.use_vector_path then ("in_memory", pyOrStr st.vector_backend "—")
  else ("tfidf", "")

def get_vector_store_status (env : MatcherEnv) (st : MatcherState) :
    MatcherState × (String × String) :=
  let st' := load_documents env st
  (st', matcher_status st')

/-- `sum(a * b for a, b in zip(q, row))`. -/
def dotQ (a b : List ℚ) : ℚ := (a.zip b).foldr (fun p acc => p.1 * p.2 + acc) 0

def sumSq (v : List ℚ) : ℚ := v.foldr (fun x acc => x * x + acc) 0

/-- `historical_matcher._cosine_similarity_vec`, with `math.sqrt` as oracle and
the `or 1e-10` zero-norm guards. -/
def cosine_similarity_vec (sqrt : ℚ → ℚ) (query_vec : List ℚ)
    (corpus_embeddings : List (List ℚ)) : List ℚ :=
  let qnorm := pyOrQ (sqrt (sumSq query_vec)) (1 / 10 ^ 10)
  corpus_embeddings.map fun row =>
    dotQ query_vec row / (qnorm * pyOrQ (sqrt (sumSq row)) (1 / 10 ^ 10))

/-- Ordering used by `sorted(range(len(sims)), key=lambda i: sims[i],
reverse=True)`: value descending, ties by original (index) order — Python's
sort is stable. -/
def descRel (sims : List ℚ) (i j : ℕ) : Prop :=
  sims.getD j 0 < sims.getD i 0 ∨ (sims.getD i 0 = sims.getD j 0 ∧ i ≤ j)

/-- Ordering used by `sims.argsort()`: value ascending, ties by index (numpy's
introsort runs insertion sort, which is stable, on short arrays). -/
def ascRel (sims : List ℚ) (i j : ℕ) : Prop :=
  sims.getD i 0 < sims.getD j 0 ∨ (sims.getD i 0 = sims.getD j 0 ∧ i ≤ j)

instance (sims : List ℚ) : DecidableRel (descRel sims) := fun i j => by
  unfold descRel; infer_instance

instance (sims : List ℚ) : DecidableRel (ascRel sims) := fun i j => by
  unfold ascRel; infer_instance

def argsort_desc (sims : List ℚ) : List ℕ :=
  List.insertionSort (descRel sims) (List.range sims.length)

def argsort_asc (sims : List ℚ) : List ℕ :=
  List.insertionSort (ascRel sims) (List.range sims.length)

/-- Python/numpy slice `a[-k:]`, including the `k = 0` corner where `a[-0:]`
is the whole list. -/
def pyTakeLast (k : ℕ) (l : List ℕ) : List ℕ :=
  if k = 0 then l else l.drop (l.length - k)

/-- The Match Result built from `_corpus_meta[idx]` and `sims[idx]`. -/
def mrow (meta : List DocMeta) (sims : List ℚ) (idx : ℕ) : MatchResult :=
  ⟨(meta.getD idx ⟨"", "", ""⟩).id, (meta.getD idx ⟨"", "", ""⟩).name,
   percentStr (pctOfScore (sims.getD idx 0))⟩

/-- One iteration of the result-building loop shared by the in-memory and
TF-IDF paths: skip an index out of range of `_corpus_meta`, else build the
Match Result from the metadata and the clamped percentage. -/
def mk_row (meta : List DocMeta) (sims : List ℚ) (idx : ℕ) : Option MatchResult :=
  if idx < meta.length then some (mrow meta sims idx) else none

/-- The in-memory vector ranking (`historical_matcher.find_similar_cases`,
sorted-indices branch). -/
def in_memory_rank (sims : List ℚ) (meta : List DocMeta) (top_k : ℕ) : List MatchResult :=
  ((argsort_desc sims).take top_k).filterMap (mk_row meta sims)

/-- The TF-IDF ranking: `sims.argsort()[-top_k:][::-1]` then the build loop. -/
def tfidf_rank (sims : List ℚ) (meta : List DocMeta) (top_k : ℕ) : List MatchResult :=
  ((pyTakeLast top_k (argsort_asc sims)).reverse).filterMap (mk_row meta sims)

/-- `historical_matcher.find_similar_cases` after `_load_documents`:
tier dispatch, query normalization (`_truncate(query, 5000) or " "`), and the
fall-through to TF-IDF (or `[]`) when the vector path cannot answer. -/
def find_similar_cases_core (env : MatcherEnv) (st : MatcherState)
    (query_text : String) (top_k : ℕ) : List MatchResult :=
  if st.corpus_meta = [] then []
  else
    let query_clean := pyOrStr (truncate_text query_text 5000) " "
    let tfidfFall : List MatchResult :=
      match st.tfidf with
      | some f => tfidf_rank (f query_clean) st.corpus_meta top_k
      | none => []
    if st.use_vector_path then
      let query_emb : Option (List ℚ) :=
        if st.vector_backend = "groq" ∧ st.groq_api_key ≠ "" then
          env.embedGroq query_clean st.groq_api_key
        else if st.vector_backend = "hf" then env.embedHF query_clean
        else none
      match query_emb with
      | some qe =>
          if st.use_chroma then query_similar env.chroma qe top_k
          else
            match st.corpus_embeddings with
            | some (e0 :: es) =>
                if qe.length = e0.length then
                  in_memory_rank (cosine_similarity_vec env.sqrt qe (e0 :: es))
                    st.corpus_meta top_k
                else tfidfFall
            | _ => tfidfFall
      | none => tfidfFall
    else tfidfFall

/-- `historical_matcher.find_similar_cases` (load, then answer). -/
def find_similar_cases (env : MatcherEnv) (st : MatcherState)
    (query_text : String) (top_k : ℕ) : MatcherState × List MatchResult :=
  let st' := load_documents env st
  (st', find_similar_cases_core env st' query_text top_k)

/-! ### `recommendation_engine.generate_recommendations` (claim C8)

The Groq chat completion is the oracle `llm : Option String` (`none` models a
missing/failed API call or a raised exception, `some raw` the returned message
content).  The prompt strings fed to the oracle do not affect the modeled
control flow. -/

/-- Split a character list on newlines (Python `str.splitlines` restricted to
`\n`; the difference on a trailing newline is erased by the blank-line filter
applied right after). -/
def splitNl : List Char → List Char → List String
  | [], cur => [String.mk cur.reverse]
  | c :: cs, cur =>
      if c = '\n' then String.mk cur.reverse :: splitNl cs []
      else splitNl cs (c :: cur)

/-- `ln.lstrip("0123456789.-)>•* \t")`. -/
def stripBullets (s : String) : String :=
  String.mk (s.toList.dropWhile (fun c => ("0123456789.-)>•* \t".toList).contains c))

/-- Parse the raw completion: split lines, trim, drop blanks, cap at
`MAX_RECOMMENDATIONS = 6`, strip bullets, keep non-empty remainders. -/
def parseRecLines (raw : String) : List String :=
  ((((splitNl raw.toList []).map pyStrip).filter (· ≠ "")).take 6).filterMap fun ln =>
    let l := stripBullets ln
    if l = "" then none else some l

/-- `recommendation_engine.generate_recommendations`: `[]` on a blank key, a
failed call, or an empty completion. -/
def generate_recommendations (llm : Option String) (api_key : String) : List String :=
  if pyStrip api_key = "" then []
  else
    match llm with
    | none => []
    | some raw =>
        let r := pyStrip raw
        if r = "" then [] else parseRecLines r

/-! ### workflow state, orchestrator node, runner (claims C4, C8, C10)

`WorkflowState` is the `TypedDict(total=False)`: optional fields are `Option`;
`step_log` absent and `[]`, and `retry_count` absent and `0`, are
indistinguishable through the `or []` / `or 0` accessors the code uses, so they
are plain `List`/`ℕ`. -/

structure LogEntry where
  step : String
  status : String
  ts : Option String
  detail : Option String
deriving DecidableEq, Repr

structure ProcessedData where
  name : String
  description : String
  riskType : String
deriving DecidableEq, Repr

structure WorkflowState where
  scenario_id : Option String
  input : Option ProcessedData
  processed : Option ProcessedData
  recommendations : Option (List String)
  historical_cases : Option (List MatchResult)
  error : Option String
  step_log : List LogEntry
  retry_count : ℕ
deriving DecidableEq, Repr

/-- Python truthiness of `state.get("error")`: set and non-empty. -/
def errTruthy (e : Option String) : Bool :=
  match e with
  | none => false
  | some s => s ≠ ""

/-- `nodes._log_step`: entry `{step, status, ts}` plus `detail` when non-empty;
`now` is the `datetime.utcnow().isoformat()` oracle. -/
def mkLogEntry (stepName status now detail : String) : LogEntry :=
  ⟨stepName, status, some (now ++ "Z"), if detail = "" then none else some detail⟩

structure OrchEnv where
  menv : MatcherEnv
  llm : Option String
  apiKey : String
  now : String

/-- `nodes.orchestrator`: skip on a prior error; otherwise call the Matching
Engine (which handles its own failures) and the Recommendation Generator
(likewise), then log `ok`.  The `except` branch of the node is unreachable in
the model because both collaborators are total. -/
def orchestrator (env : OrchEnv) (mst : MatcherState) (ws : WorkflowState) :
    WorkflowState × MatcherState :=
  if errTruthy ws.error then
    ({ ws with step_log :=
         ws.step_log ++ [mkLogEntry "orchestrator" "skipped" env.now "previous error"] }, mst)
  else
    let p := ws.processed
    let risk_type := pyOrStrOpt (p.map (·.riskType)) ""
    let nm := (p.map (·.name)).getD ""
    let desc := (p.map (·.description)).getD ""
    let query_text := nm ++ " " ++ desc ++ " " ++ risk_type
    let q := pyOrStr (pyStrip query_text) "risk"
    let fr := find_similar_cases env.menv mst q 5
    let cases := fr.2
    let recs := generate_recommendations env.llm env.apiKey
    let detail := "riskType=" ++ risk_type ++ " historical=" ++ toString cases.length
      ++ " recommendations=" ++ toString recs.length
    ({ ws with historical_cases := some cases, recommendations := some recs,
               step_log := ws.step_log ++ [mkLogEntry "orchestrator" "ok" env.now detail] },
     fr.1)

/-- The runner's `MAX_RETRIES`. -/
def MAX_RETRIES : ℕ := 2

/-- The runner's exception entry `{"step": "runner", "status": "error",
"detail": str(e)}` — note: no timestamp. -/
def runnerErrEntry (e : String) : LogEntry := ⟨"runner", "error", none, some e⟩

/-- The state the runner's `except` branch leaves behind: record the error and
append the step-log entry. -/
def recordInvokeError (s : WorkflowState) (e : String) : WorkflowState :=
  { s with error := some e, step_log := s.step_log ++ [runnerErrEntry e] }

/-- The recorded-error state with the retry counter bumped — what the next
attempt resumes from after an invocation raised. -/
def recordAndBump (s : WorkflowState) (e : String) : WorkflowState :=
  { recordInvokeError s e with retry_count := (recordInvokeError s e).retry_count + 1 }

/-- The `for attempt in range(MAX_RETRIES + 1)` loop of
`runner.run_scenario_workflow`.  `invoke` is the compiled-graph oracle
(`.error e` = the invocation raised with message `e`).  Besides the final
state, the trace of states passed to each invocation is returned, so that the
retry discipline can be stated.  The fuel `remaining` is the number of loop
iterations left (`MAX_RETRIES + 1` at the top call). -/
def run_loop (invoke : ℕ → WorkflowState → Except String WorkflowState) :
    ℕ → ℕ → WorkflowState → WorkflowState × List WorkflowState
  | _, 0, last => (last, [])
  | attempt, remaining + 1, last =>
      match invoke attempt last with
      | .ok st =>
          if errTruthy st.error ∧ attempt < MAX_RETRIES then
            let st' := { st with retry_count := st.retry_count + 1 }
            let p := run_loop invoke (attempt + 1) remaining st'
            (p.1, last :: p.2)
          else (st, [last])
      | .error e =>
          if MAX_RETRIES ≤ attempt then (recordInvokeError last e, [last])
          else
            let p := run_loop invoke (attempt + 1) remaining (recordAndBump last e)
            (p.1, last :: p.2)

/-- The initial workflow state built by the runner. -/
def initialState (scenario_id : String) (input_data : ProcessedData) : WorkflowState :=
  { scenario_id := some scenario_id, input := some input_data, processed := none,
    recommendations := none, historical_cases := none, error := none,
    step_log := [], retry_count := 0 }

/-- `runner._default_created_at`: the date prefix of the first step-log
timestamp when long enough, else `date.today()` (the `today` oracle). -/
def default_created_at (today : String) (step_log : List LogEntry) : String :=
  match step_log.head? with
  | some e =>
      let ts := e.ts.getD ""
      if 10 ≤ strLen ts then strTake ts 10 else today
  | none => today

/-- The values of the result dict assembled by the runner. -/
inductive RVal where
  | str (s : String)
  | q (x : ℚ)
  | recs (l : List String)
  | cases (l : List MatchResult)
  | log (l : List LogEntry)
  | optStr (o : Option String)
deriving DecidableEq, Repr

/-- The literal result dict of `runner.run_scenario_workflow` as an ordered
association list (one pair per dict key). -/
def mkResult (today scenario_id : String) (st : WorkflowState) : List (String × RVal) :=
  [("scenario_id", .str scenario_id),
   ("scenarioName", .str (pyOrStrOpt (st.processed.map (·.name)) scenario_id)),
   ("riskType", .str (pyOrStrOpt (st.processed.map (·.riskType)) "Market Risk")),
   ("confidenceScore", .q (82 / 100)),
   ("createdAt", .str (default_created_at today st.step_log)),
   ("recommendations", .recs (st.recommendations.getD [])),
   ("historicalCases", .cases (st.historical_cases.getD [])),
   ("step_log", .log st.step_log),
   ("error", .optStr st.error)]

/-- `runner.run_scenario_workflow`: run the loop, then assemble the result
dict from the last state.  Total — the runner never raises to its caller. -/
def run_scenario_workflow (invoke : ℕ → WorkflowState → Except String WorkflowState)
    (today scenario_id : String) (input_data : ProcessedData) : List (String × RVal) :=
  let p := run_loop invoke 0 (MAX_RETRIES + 1) (initialState scenario_id input_data)
  mkResult today scenario_id p.1

/-! ### Specification predicates and order-relation instances -/

/-- A well-behaved query answer from the Chroma library (for requests of at
least one result): one row of ids/metadatas/distances per query embedding, at
most the requested number of hits, one distance per id, distances ascending
(nearest first). -/
def ChromaWF (coll : ChromaColl) : Prop :=
  ∀ n, 1 ≤ n → ∃ ids0 metas0 d0,
    coll.query n = ⟨[ids0], [metas0], [d0]⟩ ∧
    ids0.length ≤ n ∧ d0.length = ids0.length ∧ d0.Pairwise (· ≤ ·)

/-- The ranked-output contract of `find_similar_cases`: at most `k` results,
each similarity the percentage string of an integer in `0..100`, ordered
non-increasing by that percentage. -/
def RankedOk (k : ℕ) (res : List MatchResult) : Prop :=
  res.length ≤ k ∧ ∃ pcts : List ℤ,
    res.map (·.similarity) = pcts.map percentStr ∧
    pcts.Pairwise (· ≥ ·) ∧ ∀ n ∈ pcts, 0 ≤ n ∧ n ≤ 100

instance (sims : List ℚ) : IsTotal ℕ (descRel sims) where
  total := by
    intro i j
    unfold descRel
    rcases lt_trichotomy (sims.getD i 0) (sims.getD j 0) with h | h | h
    · exact Or.inr (Or.inl h)
    · rcases Nat.le_total i j with hij | hij
      · exact Or.inl (Or.inr ⟨h, hij⟩)
      · exact Or.inr (Or.inr ⟨h.symm, hij⟩)
    · exact Or.inl (Or.inl h)

instance (sims : List ℚ) : IsTrans ℕ (descRel sims) where
  trans := by
    intro i j k hij hjk
    unfold descRel at *
    rcases hij with h1 | ⟨h1, h1'⟩ <;> rcases hjk with h2 | ⟨h2, h2'⟩
    · exact Or.inl (lt_trans h2 h1)
    · exact Or.inl (h2 ▸ h1)
    · exact Or.inl (h1 ▸ h2)
    · exact Or.inr ⟨h1.trans h2, h1'.trans h2'⟩

instance (sims : List ℚ) : IsTotal ℕ (ascRel sims) where
  total := by
    intro i j
    unfold ascRel
    rcases lt_trichotomy (sims.getD i 0) (sims.getD j 0) with h | h | h
    · exact Or.inl (Or.inl h)
    · rcases Nat.le_total i j with hij | hij
      · exact Or.inl (Or.inr ⟨h, hij⟩)
      · exact Or.inr (Or.inr ⟨h.symm, hij⟩)
    · exact Or.inr (Or.inl h)

instance (sims : List ℚ) : IsTrans ℕ (ascRel sims) where
  trans := by
    intro i j k hij hjk
    unfold ascRel at *
    rcases hij with h1 | ⟨h1, h1'⟩ <;> rcases hjk with h2 | ⟨h2, h2'⟩
    · exact Or.inl (lt_trans h1 h2)
    · exact Or.inl (h2 ▸ h1)
    · exact Or.inl (h1 ▸ h2)
    · exact Or.inr ⟨h1.trans h2, h1'.trans h2'⟩

/-- The state the runner hands to the next attempt after an invocation whose
terminal state carried `error`, or after an invocation that raised. -/
def nextOf (invoke : ℕ → WorkflowState → Except String WorkflowState) (i : ℕ)
    (s s' : WorkflowState) : Prop :=
  (∃ st, invoke i s = .ok st ∧ errTruthy st.error = true ∧
     s' = { st with retry_count := st.retry_count + 1 }) ∨
  (∃ e, invoke i s = .error e ∧ s' = recordAndBump s e)

/-- The final state produced by the attempt the loop breaks on. -/
def finalOf (invoke : ℕ → WorkflowState → Except String WorkflowState) (i : ℕ)
    (s : WorkflowState) : WorkflowState :=
  match invoke i s with
  | .ok st => st
  | .error e => recordInvokeError s e

/-! ### Concrete fixtures used by witnesses and counterexamples -/

/-- A sentence-transformers model whose encoders always answer with `[1]`. -/
def mWit : Model := ⟨fun _ => some [1], fun ts => some (ts.map fun _ => [1])⟩

/-- A one-document Chroma collection at distance `0`; for a zero-result
request it answers with empty rows, as the library would. -/
def collWit : ChromaColl :=
  ⟨1, fun n => if n = 0 then ⟨[[]], [[]], [[]]⟩
      else ⟨[["HC-001"]], [[some "Case 1"]], [[0]]⟩⟩

/-- A matcher environment: no DB/JSON corpus, failing providers except a local
query embedder answering `[1]`, and the one-document collection. -/
def envWit : MatcherEnv :=
  { sqrt := fun q => q, groqKey := "", refDocs := [], userDocs := [],
    jsonRaw := none, groqBatch := fun _ => none, hfBatch := fun _ => none,
    syncOK := fun _ _ => false, tfidfFit := fun _ => none,
    embedGroq := fun _ _ => none, embedHF := fun _ => some [1], chroma := collWit }

/-- A loaded matcher on the Chroma tier (HF backend), one corpus document. -/
def stChromaWit : MatcherState :=
  { loaded := true, corpus_meta := [⟨"HC-001", "Case 1", "text"⟩],
    corpus_embeddings := none, use_vector_path := true, use_chroma := true,
    vector_backend := "hf", groq_api_key := "", tfidf := none }

/-- A loaded matcher on the TF-IDF tier whose two corpus entries score the
same similarity for every query. -/
def stTfidfTie : MatcherState :=
  { loaded := true,
    corpus_meta := [⟨"HC-001", "Case 1", "a"⟩, ⟨"HC-002", "Case 2", "b"⟩],
    corpus_embeddings := none, use_vector_path := false, use_chroma := false,
    vector_backend := "", groq_api_key := "", tfidf := some (fun _ => [1, 1]) }

/-- A loaded matcher on the TF-IDF tier with a single corpus document. -/
def stTfidfOne : MatcherState :=
  { loaded := true, corpus_meta := [⟨"HC-001", "Case 1", "text"⟩],
    corpus_embeddings := none, use_vector_path := false, use_chroma := false,
    vector_backend := "", groq_api_key := "", tfidf := some (fun _ => [1]) }

/-- A loaded matcher with nothing: empty corpus, no tier. -/
def stEmptyWit : MatcherState :=
  { loaded := true, corpus_meta := [], corpus_embeddings := none,
    use_vector_path := false, use_chroma := false, vector_backend := "",
    groq_api_key := "", tfidf := none }

/-- A scenario input fixture. -/
def pWit : ProcessedData := ⟨"Rate shock", "rates rise", "Market"⟩

/-- A graph oracle that raises on the first attempt and then succeeds. -/
def invokeWit : ℕ → WorkflowState → Except String WorkflowState :=
  fun n st => if n = 0 then .error "boom" else .ok { st with error := none }

/-- A graph oracle that returns its input unchanged (a clean first attempt). -/
def invokeOk : ℕ → WorkflowState → Except String WorkflowState :=
  fun _ st => .ok st

/-- A workflow state after a successful normalize step. -/
def wsWit : WorkflowState := { initialState "S" pWit with processed := some pWit }

/-- An orchestrator environment with failing recommendation provider. -/
def oenvWit : OrchEnv := { menv := envWit, llm := none, apiKey := "", now := "T" }

/-! ### Theorems -/

/-- C2 counterexample: with the prior collection holding one document and the
bulk insert raising, `sync_collection` returns `False` but the prior contents
are gone (the collection was deleted and recreated empty before the insert
failed) — so the call is not atomic from the caller's view. -/
theorem c2_counterexample :
    (sync_collection ⟨false, false, true⟩ (some [("HC-001", ([1], some "Case 1"))])
        ["HC-002"] [[2]] [some "Case 2"]).1 = false ∧
    (sync_collection ⟨false, false, true⟩ (some [("HC-001", ([1], some "Case 1"))])
        ["HC-002"] [[2]] [some "Case 2"]).2 ≠ some [("HC-001", ([1], some "Case 1"))] := by
  constructor
  · rfl
  · decide

/-- C2 (amended): `sync_collection` returns `True` exactly when it fully
replaced the collection with the given triples; an argument-validation failure
returns `False` with the prior state untouched; but a bulk-insert failure
(after the successful delete and recreate) returns `False` with the prior
contents already destroyed — the collection is left recreated and empty. -/
theorem c2_sync_collection_spec (env : ChromaSyncEnv) (store : Option Collection)
    (ids : List String) (embeddings : List (List ℚ)) (metadatas : List (Option String)) :
    ((sync_collection env store ids embeddings metadatas).1 = true →
      (sync_collection env store ids embeddings metadatas).2
        = some (ids.zip (embeddings.zip metadatas))) ∧
    (ids = [] ∨ ids.length ≠ embeddings.length ∨ ids.length ≠ metadatas.length →
      sync_collection env store ids embeddings metadatas = (false, store)) ∧
    (¬(ids = [] ∨ ids.length ≠ embeddings.length ∨ ids.length ≠ metadatas.length) →
      env.deleteFails = false → env.createFails = false → env.addFails = true →
      sync_collection env store ids embeddings metadatas = (false, some [])) := by
  rcases env with ⟨d, c, a⟩
  refine ⟨?_, ?_, ?_⟩ <;>
  · cases store <;> cases d <;> cases c <;> cases a <;>
      by_cases h1 : (ids = [] ∨ ids.length ≠ embeddings.length ∨ ids.length ≠ metadatas.length) <;>
      simp_all [sync_collection] <;>
      simp [h1.2.1.symm.trans h1.2.2]

/-- C7 counterexample: after a failed model load (`_model` still `None`), the
very next call to `get_embedding_hf` re-attempts the load; when that attempt
succeeds it returns an embedding, not `None` — refuting "every subsequent call
returns absent without re-attempting the model load". -/
theorem c7_counterexample :
    (get_embedding_hf none none "x").1 = none ∧
    (get_embedding_hf (some mWit) ((get_embedding_hf none none "x").2) "x").1
      = some [1] := by
  exact ⟨rfl, rfl⟩

/-- C7 (amended): the local provider memoizes only a *successful* load: with a
model cached, a call never re-attempts the load (the result is independent of
the fresh-load outcome); after a failed load `_model` stays `None`, so the next
call re-attempts the load and its result is exactly the fresh outcome; while
loading keeps failing, every call returns `None` and the state stays `None`. -/
theorem c7_model_memoization (load : Option Model) (m : Model) (t : String)
    (texts : List String) :
    get_model_hf load (some m) = (some m, some m) ∧
    get_model_hf load none = (load, load) ∧
    get_embedding_hf none none t = (none, none) ∧
    (get_embeddings_batch_hf none none (t :: texts)).1 = none := by
  refine ⟨rfl, rfl, rfl, ?_⟩
  simp [get_embeddings_batch_hf, get_model_hf]

/-- C2 witness: a fully successful call reports `True` and the collection holds
exactly the given triples. -/
theorem c2_witness :
    (sync_collection ⟨false, false, false⟩ none ["A"] [[1]] [some "A"]).2
      = some [("A", ([1], some "A"))] :=
  (c2_sync_collection_spec ⟨false, false, false⟩ none ["A"] [[1]] [some "A"]).1 rfl

/-- Every branch of the load body marks the matcher loaded. -/
theorem load_compute_loaded (env : MatcherEnv) (st : MatcherState) :
    (load_compute env st).loaded = true := by
  unfold load_compute
  dsimp only
  repeat' split
  all_goals rfl

/-- `_load_documents` always leaves `_loaded` set. -/
theorem load_documents_loaded (env : MatcherEnv) (st : MatcherState) :
    (load_documents env st).loaded = true := by
  unfold load_documents
  split
  · assumption
  · exact load_compute_loaded env st

/-- A second `_load_documents` call — under any environment, i.e. any provider
outcomes — is a no-op. -/
theorem load_documents_idem (env1 env2 : MatcherEnv) (st : MatcherState) :
    load_documents env2 (load_documents env1 st) = load_documents env1 st := by
  rw [load_documents]
  simp [load_documents_loaded env1 st]

/-- C6: tier selection is sticky.  The first `_load_documents` marks the state
loaded, and from then on every `find_similar_cases` or
`get_vector_store_status` call — under any second environment, in particular
one where a provider now fails or now succeeds differently — reuses the cached
state and reports the same tier and backend, without re-running selection. -/
theorem c6_sticky_tier_selection (env : MatcherEnv) (st : MatcherState) :
    (load_documents env st).loaded = true ∧
    ∀ (env2 : MatcherEnv) (q : String) (k : ℕ),
      load_documents env2 (load_documents env st) = load_documents env st ∧
      (find_similar_cases env2 (load_documents env st) q k).1 = load_documents env st ∧
      get_vector_store_status env2 (load_documents env st)
        = (load_documents env st, matcher_status (load_documents env st)) := by
  refine ⟨load_documents_loaded env st, fun env2 q k => ⟨load_documents_idem env env2 st, ?_, ?_⟩⟩
  · unfold find_similar_cases
    rw [load_documents_idem env env2 st]
  · unfold get_vector_store_status
    rw [load_documents_idem env env2 st]

/-- `round` of an integral rational is that integer. -/
theorem pyRound_intCast (n : ℤ) : pyRound (n : ℚ) = n := by
  unfold pyRound
  rw [Int.floor_intCast]
  dsimp only
  have h0 : (n : ℚ) - (n : ℚ) = 0 := sub_self _
  rw [h0]
  norm_num

/-- The percentage of a perfect similarity score. -/
theorem pctOfScore_one : pctOfScore 1 = 100 := by
  unfold pctOfScore
  have h : (1 : ℚ) * 100 = ((100 : ℤ) : ℚ) := by norm_num
  rw [h, pyRound_intCast]
  decide

/-- The percentage computed by the chroma row loop at distance `0`. -/
theorem chroma_pct_at_zero : pctOfScore (max 0 (min 1 ((1 : ℚ) - 0))) = 100 := by
  have h : (max 0 (min 1 ((1 : ℚ) - 0))) = 1 := by norm_num
  rw [h, pctOfScore_one]

/-- C5 counterexample: on a non-empty corpus an empty query text does NOT
yield the empty result — it is normalized to `" "`, embedded, and answered
like any other query (here: one match at 100%). -/
theorem c5_counterexample :
    (find_similar_cases envWit stChromaWit "" 5).2
      = [⟨"HC-001", "Case 1", percentStr (pctOfScore (max 0 (min 1 (1 - 0))))⟩] ∧
    percentStr (pctOfScore (max 0 (min 1 ((1 : ℚ) - 0)))) = "100%" ∧
    (find_similar_cases envWit stChromaWit "" 5).2 ≠ [] := by
  have h : (find_similar_cases envWit stChromaWit "" 5).2
      = [⟨"HC-001", "Case 1", percentStr (pctOfScore (max 0 (min 1 (1 - 0))))⟩] := rfl
  refine ⟨h, ?_, ?_⟩
  · rw [chroma_pct_at_zero]
    decide
  · rw [h]
    simp

/-- C5 (amended): for an empty corpus `find_similar_cases` returns `[]` (and
never raises) for every query and `top_k`; an empty query text is normalized
to `" "` and processed exactly like the one-blank query — it is not
special-cased to an empty result. -/
theorem c5_empty_corpus_empty_query :
    (∀ (env : MatcherEnv) (st : MatcherState) (q : String) (k : ℕ),
        (load_documents env st).corpus_meta = [] →
        (find_similar_cases env st q k).2 = []) ∧
    (∀ (env : MatcherEnv) (st : MatcherState) (k : ℕ),
        find_similar_cases env st "" k = find_similar_cases env st " " k) := by
  constructor
  · intro env st q k h
    unfold find_similar_cases find_similar_cases_core
    simp [h]
  · intro env st k
    rfl

/-- C5 witness: the empty-corpus half applied to a concrete empty matcher. -/
theorem c5_witness : (find_similar_cases envWit stEmptyWit "anything" 7).2 = [] :=
  c5_empty_corpus_empty_query.1 envWit stEmptyWit "anything" 7 rfl

/-- C10: whatever the graph oracle does, the runner's result dict has exactly
the nine keys in order; `confidenceScore` is the constant `0.82`; and when the
final state's normalization output is missing (or empty), `scenarioName` falls
back to the scenario id and `riskType` to `"Market Risk"`. -/
theorem c10_result_dict (invoke : ℕ → WorkflowState → Except String WorkflowState)
    (today sid : String) (inp : ProcessedData) :
    (run_scenario_workflow invoke today sid inp).map Prod.fst
      = ["scenario_id", "scenarioName", "riskType", "confidenceScore", "createdAt",
         "recommendations", "historicalCases", "step_log", "error"] ∧
    (run_scenario_workflow invoke today sid inp).lookup "confidenceScore"
      = some (.q (82 / 100)) ∧
    ((run_loop invoke 0 (MAX_RETRIES + 1) (initialState sid inp)).1.processed.map
        (·.name) = none ∨
     (run_loop invoke 0 (MAX_RETRIES + 1) (initialState sid inp)).1.processed.map
        (·.name) = some "" →
      (run_scenario_workflow invoke today sid inp).lookup "scenarioName"
        = some (.str sid)) ∧
    ((run_loop invoke 0 (MAX_RETRIES + 1) (initialState sid inp)).1.processed.map
        (·.riskType) = none ∨
     (run_loop invoke 0 (MAX_RETRIES + 1) (initialState sid inp)).1.processed.map
        (·.riskType) = some "" →
      (run_scenario_workflow invoke today sid inp).lookup "riskType"
        = some (.str "Market Risk")) := by
  refine ⟨rfl, rfl, ?_, ?_⟩
  · intro h
    have hbase : (run_scenario_workflow invoke today sid inp).lookup "scenarioName"
        = some (.str (pyOrStrOpt
            ((run_loop invoke 0 (MAX_RETRIES + 1) (initialState sid inp)).1.processed.map
              (·.name)) sid)) := rfl
    rw [hbase]
    rcases h with h | h <;> rw [h] <;> rfl
  · intro h
    have hbase : (run_scenario_workflow invoke today sid inp).lookup "riskType"
        = some (.str (pyOrStrOpt
            ((run_loop invoke 0 (MAX_RETRIES + 1) (initialState sid inp)).1.processed.map
              (·.riskType)) "Market Risk")) := rfl
    rw [hbase]
    rcases h with h | h <;> rw [h] <;> rfl

/-- C10 witness: with a clean one-attempt oracle the defaults kick in. -/
theorem c10_witness :
    (run_scenario_workflow invokeOk "2026-01-01" "S-1" pWit).lookup "scenarioName"
      = some (.str "S-1") ∧
    (run_scenario_workflow invokeOk "2026-01-01" "S-1" pWit).lookup "riskType"
      = some (.str "Market Risk") :=
  ⟨(c10_result_dict invokeOk "2026-01-01" "S-1" pWit).2.2.1 (Or.inl rfl),
   (c10_result_dict invokeOk "2026-01-01" "S-1" pWit).2.2.2 (Or.inl rfl)⟩

/-- The stable descending argsort is sorted for its ordering. -/
theorem argsort_desc_pairwise (sims : List ℚ) :
    (argsort_desc sims).Pairwise (descRel sims) :=
  List.sorted_insertionSort (descRel sims) (List.range sims.length)

/-- The stable ascending argsort is sorted for its ordering. -/
theorem argsort_asc_pairwise (sims : List ℚ) :
    (argsort_asc sims).Pairwise (ascRel sims) :=
  List.sorted_insertionSort (ascRel sims) (List.range sims.length)

/-- The descending argsort never repeats an index. -/
theorem argsort_desc_nodup (sims : List ℚ) : (argsort_desc sims).Nodup :=
  ((List.perm_insertionSort (descRel sims) (List.range sims.length)).nodup_iff).mpr
    (List.nodup_range _)

/-- The ascending argsort never repeats an index. -/
theorem argsort_asc_nodup (sims : List ℚ) : (argsort_asc sims).Nodup :=
  ((List.perm_insertionSort (ascRel sims) (List.range sims.length)).nodup_iff).mpr
    (List.nodup_range _)

/-- `a[-k:]` is a sublist. -/
theorem pyTakeLast_sublist (k : ℕ) (l : List ℕ) : (pyTakeLast k l).Sublist l := by
  unfold pyTakeLast
  split
  · exact List.Sublist.refl l
  · exact List.drop_sublist _ l

/-- C9 counterexample: on the TF-IDF path two corpus entries with EQUAL
similarity scores come back in reverse corpus insertion order ("HC-002" before
"HC-001"), because the ranking reverses an ascending argsort — refuting the
stable-insertion-order claim for that path. -/
theorem c9_counterexample :
    (find_similar_cases envWit stTfidfTie "query" 5).2
      = [⟨"HC-002", "Case 2", percentStr (pctOfScore 1)⟩,
         ⟨"HC-001", "Case 1", percentStr (pctOfScore 1)⟩] ∧
    percentStr (pctOfScore 1) = "100%" := by
  refine ⟨rfl, ?_⟩
  rw [pctOfScore_one]
  decide

/-- C9 (amended): tie-breaking differs by tier.  On the in-memory vector path
the ranked index list is stable: equal scores keep corpus insertion order
(`i < j`).  On the TF-IDF path the ranked index list reverses an ascending
argsort, so equal scores appear in REVERSE corpus insertion order (`j < i`).
The first two conjuncts pin these index lists to the rankings
`find_similar_cases` uses. -/
theorem c9_tie_break_order (sims : List ℚ) (meta : List DocMeta) (k : ℕ) :
    in_memory_rank sims meta k
      = ((argsort_desc sims).take k).filterMap (mk_row meta sims) ∧
    tfidf_rank sims meta k
      = ((pyTakeLast k (argsort_asc sims)).reverse).filterMap (mk_row meta sims) ∧
    ((argsort_desc sims).take k).Pairwise
      (fun i j => sims.getD i 0 = sims.getD j 0 → i < j) ∧
    ((pyTakeLast k (argsort_asc sims)).reverse).Pairwise
      (fun i j => sims.getD i 0 = sims.getD j 0 → j < i) := by
  refine ⟨rfl, rfl, ?_, ?_⟩
  · have hcomb := (argsort_desc_pairwise sims).and (argsort_desc_nodup sims)
    have hstable : (argsort_desc sims).Pairwise
        (fun i j => sims.getD i 0 = sims.getD j 0 → i < j) := by
      refine hcomb.imp ?_
      rintro a b ⟨hr, hne⟩ heq
      rcases hr with h | ⟨_, h2⟩
      · exact absurd (heq ▸ h) (lt_irrefl _)
      · exact lt_of_le_of_ne h2 hne
    exact List.Pairwise.sublist (List.take_sublist _ _) hstable
  · have hcomb := (argsort_asc_pairwise sims).and (argsort_asc_nodup sims)
    have hlast : (pyTakeLast k (argsort_asc sims)).Pairwise
        (fun i j => ascRel sims i j ∧ i ≠ j) :=
      List.Pairwise.sublist (pyTakeLast_sublist _ _) hcomb
    rw [List.pairwise_reverse]
    refine hlast.imp ?_
    rintro a b ⟨hr, hne⟩ heq
    rcases hr with h | ⟨_, h2⟩
    · exact absurd (heq ▸ h) (lt_irrefl _)
    · exact lt_of_le_of_ne h2 hne


/-- Helper: `l[i]?` is `some` of the defaulted access when in range. -/
theorem get?_eq_some_getD {α : Type} (l : List α) (d : α) (i : ℕ) (h : i < l.length) :
    l.get? i = some (l.getD i d) := by
  rw [List.getD_eq_getElem?_getD, List.get?_eq_getElem?, List.getElem?_eq_getElem h]
  rfl

/-- Helper: a `filterMap id` that loses no length came from all-`some`s. -/
theorem filterMap_id_length_eq {α : Type} (l : List (Option α))
    (h : (l.filterMap id).length = l.length) : l = (l.filterMap id).map some := by
  induction l with
  | nil => rfl
  | cons a t ih =>
      cases a with
      | none =>
          exfalso
          have hle := List.length_filterMap_le (id : Option α → Option α) t
          have hfm : List.filterMap id (none :: t) = List.filterMap id t := by simp
          rw [hfm] at h
          simp only [List.length_cons] at h
          omega
      | some a =>
          have hfm : List.filterMap id (some a :: t) = a :: List.filterMap id t := by simp
          rw [hfm] at h ⊢
          simp only [List.length_cons] at h
          rw [List.map_cons]
          have ht := ih (by omega)
          rw [← ht]

/-- What a successful chunked batch loop collects: the per-text results of the
endpoint's embedding function, in input order, with missing embeddings
dropped. -/
theorem groq_batch_loop_spec (api : List String → Option (List (Option (List ℚ))))
    (bs : ℕ) (f : String → Option (List ℚ))
    (hapi : ∀ c, api c = none ∨ api c = some (c.map f)) :
    ∀ (fuel : ℕ) (ts : List String) (out : List (List ℚ)),
      groq_batch_loop api bs fuel ts = some out →
      out = ((ts.map normText).map f).filterMap id := by
  intro fuel
  induction fuel with
  | zero =>
      intro ts out h
      cases ts with
      | nil =>
          simp only [groq_batch_loop, Option.some.injEq] at h
          simp [← h]
      | cons t ts' => simp [groq_batch_loop] at h
  | succ n ih =>
      intro ts out h
      cases ts with
      | nil =>
          simp only [groq_batch_loop, Option.some.injEq] at h
          simp [← h]
      | cons t ts' =>
          rw [groq_batch_loop] at h
          rcases hapi (((t :: ts').take bs).map normText) with ha | ha
          · rw [ha] at h
            exact absurd h (by simp)
          · rw [ha] at h
            cases hr : groq_batch_loop api bs n ((t :: ts').drop bs) with
            | none => rw [hr] at h; simp at h
            | some rest =>
                rw [hr] at h
                simp only [Option.some.injEq] at h
                rw [← h, ih _ _ hr]
                rw [← List.filterMap_append, ← List.map_append, ← List.map_append,
                    List.take_append_drop]

/-- C3: both batch embedding functions either answer with exactly one vector
per input text, in input order (the endpoint's embedding of the stripped
text), or answer `None`; never a shorter or reordered list.  The cloud
endpoint is assumed to answer each chunk with one response item per chunk
entry in chunk order (or to fail); the local model is assumed to encode a
batch to one row per text in order (or to fail). -/
theorem c3_embed_many_order_preserving :
    (∀ (api : List String → Option (List (Option (List ℚ))))
       (f : String → Option (List ℚ)),
      (∀ c, api c = none ∨ api c = some (c.map f)) →
      ∀ (texts : List String) (api_key : String) (batch_size : ℕ)
        (out : List (List ℚ)),
        get_embeddings_batch api texts api_key batch_size = some out →
        out.length = texts.length ∧
        ∀ i, i < texts.length → out.get? i = f (normText (texts.getD i ""))) ∧
    (∀ (load st : Option Model) (g : String → List ℚ),
      (∀ m, (get_model_hf load st).1 = some m →
        ∀ ts r, m.encodeMany ts = some r → r = ts.map g) →
      ∀ (texts : List String) (out : List (List ℚ)) (st' : Option Model),
        get_embeddings_batch_hf load st texts = (some out, st') →
        out.length = texts.length ∧
        ∀ i, i < texts.length → out.get? i = some (g (normText (texts.getD i "")))) := by
  constructor
  · intro api f hapi texts key bs out h
    unfold get_embeddings_batch at h
    by_cases hkey : (pyStrip key = "" ∨ texts = [])
    · rw [if_pos hkey] at h
      exact absurd h (by simp)
    · rw [if_neg hkey] at h
      cases hloop : groq_batch_loop api bs texts.length texts with
      | none =>
          rw [hloop] at h
          exact absurd h (by simp)
      | some o =>
          rw [hloop] at h
          dsimp only at h
          by_cases hlen : o.length = texts.length
          · rw [if_pos hlen] at h
            have hout : o = out := Option.some.inj h
            subst hout
            have ho := groq_batch_loop_spec api bs f hapi _ _ _ hloop
            refine ⟨hlen, ?_⟩
            intro i hi
            have hfml : ((texts.map normText).map f).filterMap id = o := ho.symm
            have hl2 : (((texts.map normText).map f).filterMap id).length
                = ((texts.map normText).map f).length := by
              rw [hfml, hlen]
              simp
            have hsome := filterMap_id_length_eq _ hl2
            rw [hfml] at hsome
            have h1 : ((texts.map normText).map f).get? i = (o.map some).get? i := by
              rw [hsome]
            simp only [List.get?_map] at h1
            rw [get?_eq_some_getD texts "" i hi] at h1
            simp only [Option.map_some'] at h1
            have h2 := h1.symm
            rw [Option.map_eq_some'] at h2
            obtain ⟨v, hoi, hv⟩ := h2
            rw [hoi, ← hv]
          · rw [if_neg hlen] at h
            exact absurd h (by simp)
  · intro load st g hg texts out st' h
    unfold get_embeddings_batch_hf at h
    by_cases hts : texts = []
    · rw [if_pos hts] at h
      exact absurd h (by simp)
    · rw [if_neg hts] at h
      rcases hgm : get_model_hf load st with ⟨mq, st2⟩
      rw [hgm] at h
      cases mq with
      | none =>
          dsimp only at h
          exact absurd h (by simp)
      | some m =>
          dsimp only at h
          cases he : m.encodeMany (texts.map normText) with
          | none =>
              rw [he] at h
              exact absurd h (by simp)
          | some vs =>
              rw [he] at h
              dsimp only at h
              have hv : vs = (texts.map normText).map g := hg m (by rw [hgm]) _ _ he
              by_cases hlen : vs.length = (texts.map normText).length
              · rw [if_pos hlen] at h
                simp only [Prod.mk.injEq, Option.some.injEq] at h
                obtain ⟨hout, _⟩ := h
                subst hout
                constructor
                · rw [hv]
                  simp
                · intro i hi
                  rw [hv]
                  simp only [List.get?_map]
                  rw [get?_eq_some_getD texts "" i hi]
                  rfl
              · rw [if_neg hlen] at h
                exact absurd h (by simp)

/-- C3 witness: a two-text cloud batch and a one-text local batch, both with a
well-behaved endpoint, come back complete and in order. -/
theorem c3_witness :
    (([[(1 : ℚ)], [1]] : List (List ℚ)).length = (["a", "b"] : List String).length ∧
      ∀ i, i < (["a", "b"] : List String).length →
        ([[(1 : ℚ)], [1]] : List (List ℚ)).get? i = some [(1 : ℚ)]) ∧
    (([[(1 : ℚ)]] : List (List ℚ)).length = (["hello"] : List String).length ∧
      ∀ i, i < (["hello"] : List String).length →
        ([[(1 : ℚ)]] : List (List ℚ)).get? i = some [(1 : ℚ)]) := by
  constructor
  · exact c3_embed_many_order_preserving.1
      (fun c => some (c.map fun _ => some [(1 : ℚ)]))
      (fun _ => some [(1 : ℚ)]) (fun c => Or.inr rfl) ["a", "b"] "k" 50 [[1], [1]] rfl
  · refine c3_embed_many_order_preserving.2 (some mWit) none (fun _ => [(1 : ℚ)])
      ?_ ["hello"] [[1]] (some mWit) rfl
    intro m hm ts r hr
    have hm' : mWit = m := Option.some.inj hm
    subst hm'
    have hmw : mWit.encodeMany ts = some (ts.map fun _ => [(1 : ℚ)]) := rfl
    rw [hmw] at hr
    exact (Option.some.inj hr).symm

/-- A failed (or key-less) completion call degrades to no recommendations. -/
theorem generate_recommendations_none (key : String) :
    generate_recommendations none key = [] := by
  unfold generate_recommendations
  split
  · rfl
  · rfl

/-- A matcher with no vector tier and no TF-IDF index answers every query with
the empty list (and, being a total function, never raises). -/
theorem find_core_no_index (env : MatcherEnv) (st : MatcherState) (q : String) (k : ℕ)
    (h1 : st.use_vector_path = false) (h2 : st.tfidf = none) :
    find_similar_cases_core env st q k = [] := by
  unfold find_similar_cases_core
  split
  · rfl
  · dsimp only
    rw [h1, h2]
    simp

/-- C8: with no prior error, the orchestrator node never sets `error` through
a Matching Engine or Recommendation Generator failure: both collaborators are
total (they catch their own provider failures), the node always records an
`ok` step, stores a (possibly empty) result for each, and a failed
recommendation provider or an index-less matcher degrade to `[]`. -/
theorem c8_orchestrator_degrades (env : OrchEnv) (mst : MatcherState) (ws : WorkflowState)
    (h : errTruthy ws.error = false) :
    (orchestrator env mst ws).1.error = ws.error ∧
    (∃ cases, (orchestrator env mst ws).1.historical_cases = some cases) ∧
    (∃ recs, (orchestrator env mst ws).1.recommendations = some recs) ∧
    (env.llm = none → (orchestrator env mst ws).1.recommendations = some []) ∧
    (mst.loaded = true → mst.use_vector_path = false → mst.tfidf = none →
      (orchestrator env mst ws).1.historical_cases = some []) ∧
    (∃ d, (orchestrator env mst ws).1.step_log
        = ws.step_log ++ [mkLogEntry "orchestrator" "ok" env.now d]) := by
  unfold orchestrator
  rw [if_neg (by rw [h]; exact Bool.false_ne_true)]
  dsimp only
  refine ⟨rfl, ⟨_, rfl⟩, ⟨_, rfl⟩, ?_, ?_, ⟨_, rfl⟩⟩
  · intro hllm
    simp only [hllm, generate_recommendations_none]
  · intro hld hvec htf
    have hload : load_documents env.menv mst = mst := by
      unfold load_documents
      rw [hld]
      simp
    simp only [find_similar_cases, hload, find_core_no_index env.menv mst _ _ hvec htf]

/-- C8 witness: a concrete run with failing recommendation provider and an
index-less matcher: the node stores empty results and leaves `error` alone. -/
theorem c8_witness :
    (orchestrator oenvWit stEmptyWit wsWit).1.recommendations = some [] ∧
    (orchestrator oenvWit stEmptyWit wsWit).1.historical_cases = some [] :=
  ⟨(c8_orchestrator_degrades oenvWit stEmptyWit wsWit rfl).2.2.2.1 rfl,
   (c8_orchestrator_degrades oenvWit stEmptyWit wsWit rfl).2.2.2.2.1 rfl rfl rfl⟩

/-- `round` never goes below the floor. -/
theorem pyRound_ge_floor (q : ℚ) : ⌊q⌋ ≤ pyRound q := by
  unfold pyRound
  dsimp only
  split_ifs <;> omega

/-- `round` never exceeds the floor plus one. -/
theorem pyRound_le_floor_add_one (q : ℚ) : pyRound q ≤ ⌊q⌋ + 1 := by
  unfold pyRound
  dsimp only
  split_ifs <;> omega

/-- Round-half-to-even is monotone. -/
theorem pyRound_mono {q q' : ℚ} (h : q ≤ q') : pyRound q ≤ pyRound q' := by
  have hf : ⌊q⌋ ≤ ⌊q'⌋ := Int.floor_le_floor h
  rcases lt_or_eq_of_le hf with hlt | heq
  · calc pyRound q ≤ ⌊q⌋ + 1 := pyRound_le_floor_add_one q
      _ ≤ ⌊q'⌋ := by omega
      _ ≤ pyRound q' := pyRound_ge_floor q'
  · unfold pyRound
    dsimp only
    rw [← heq]
    have hr : q - (⌊q⌋ : ℚ) ≤ q' - (⌊q⌋ : ℚ) := by linarith
    split_ifs <;> first | omega | linarith

/-- The clamped percentage is non-negative. -/
theorem pctOfScore_nonneg (s : ℚ) : 0 ≤ pctOfScore s := le_max_left _ _

/-- The clamped percentage is at most 100. -/
theorem pctOfScore_le_100 (s : ℚ) : pctOfScore s ≤ 100 :=
  max_le (by norm_num) (min_le_left _ _)

/-- The clamped percentage is monotone in the score. -/
theorem pctOfScore_mono {s t : ℚ} (h : s ≤ t) : pctOfScore s ≤ pctOfScore t := by
  unfold pctOfScore
  refine max_le_max le_rfl (min_le_min le_rfl (pyRound_mono ?_))
  exact mul_le_mul_of_nonneg_right h (by norm_num)

/-- The chroma percentage is antitone in the distance. -/
theorem chromaPct_antitone {d d' : ℚ} (h : d ≤ d') :
    pctOfScore (max 0 (min 1 (1 - d'))) ≤ pctOfScore (max 0 (min 1 (1 - d))) :=
  pctOfScore_mono (max_le_max le_rfl (min_le_min le_rfl (by linarith)))

/-- The empty answer satisfies the ranked contract for every `k`. -/
theorem rankedOk_nil (k : ℕ) : RankedOk k [] :=
  ⟨by simp, [], by simp, by simp, by simp⟩

/-- The build loop keeps exactly the in-range indices, as `mrow`s. -/
theorem filterMap_mk_row (meta : List DocMeta) (sims : List ℚ) (l : List ℕ) :
    l.filterMap (mk_row meta sims)
      = (l.filter (fun i => decide (i < meta.length))).map (mrow meta sims) := by
  induction l with
  | nil => rfl
  | cons a t ih =>
      by_cases hc : a < meta.length
      · simp [List.filterMap_cons, List.filter_cons, mk_row, hc, ih]
      · simp [List.filterMap_cons, List.filter_cons, mk_row, hc, ih]

/-- Any index list that is non-increasing in score yields a ranked answer of
at most its length. -/
theorem rankedOk_of_sorted_idx (meta : List DocMeta) (sims : List ℚ) (k : ℕ)
    (idxs : List ℕ) (hlen : idxs.length ≤ k)
    (hp : idxs.Pairwise (fun i j => sims.getD j 0 ≤ sims.getD i 0)) :
    RankedOk k (idxs.filterMap (mk_row meta sims)) := by
  rw [filterMap_mk_row]
  refine ⟨?_, (idxs.filter (fun i => decide (i < meta.length))).map
      (fun i => pctOfScore (sims.getD i 0)), ?_, ?_, ?_⟩
  · rw [List.length_map]
    exact le_trans (List.length_filter_le _ _) hlen
  · simp only [List.map_map]
    rfl
  · have hf := List.Pairwise.filter (fun i => decide (i < meta.length)) hp
    refine List.Pairwise.map _ ?_ hf
    intro a b hab
    exact pctOfScore_mono hab
  · intro n hn
    rw [List.mem_map] at hn
    obtain ⟨i, _, rfl⟩ := hn
    exact ⟨pctOfScore_nonneg _, pctOfScore_le_100 _⟩

/-- The in-memory vector ranking meets the contract for every `top_k`. -/
theorem rankedOk_in_memory (sims : List ℚ) (meta : List DocMeta) (k : ℕ) :
    RankedOk k (in_memory_rank sims meta k) := by
  unfold in_memory_rank
  refine rankedOk_of_sorted_idx meta sims k _ ?_ ?_
  · rw [List.length_take]
    exact min_le_left _ _
  · have hw : (argsort_desc sims).Pairwise (fun i j => sims.getD j 0 ≤ sims.getD i 0) := by
      refine (argsort_desc_pairwise sims).imp ?_
      intro a b hab
      rcases hab with h | ⟨h, _⟩
      · exact le_of_lt h
      · exact le_of_eq h.symm
    exact List.Pairwise.sublist (List.take_sublist _ _) hw

/-- The TF-IDF ranking meets the contract for every `top_k ≥ 1`
(`top_k = 0` slices the whole array — see the C1 counterexample). -/
theorem rankedOk_tfidf (sims : List ℚ) (meta : List DocMeta) (k : ℕ) (hk : k ≠ 0) :
    RankedOk k (tfidf_rank sims meta k) := by
  unfold tfidf_rank
  refine rankedOk_of_sorted_idx meta sims k _ ?_ ?_
  · rw [List.length_reverse]
    unfold pyTakeLast
    rw [if_neg hk, List.length_drop]
    omega
  · have hsub : (pyTakeLast k (argsort_asc sims)).Pairwise (ascRel sims) :=
      List.Pairwise.sublist (pyTakeLast_sublist _ _) (argsort_asc_pairwise sims)
    rw [List.pairwise_reverse]
    refine hsub.imp ?_
    intro a b hab
    rcases hab with h | ⟨h, _⟩
    · exact le_of_lt h
    · exact le_of_eq h

/-- The chroma row loop yields one Match Result per returned id. -/
theorem chroma_rows_length (d0 : Option (List ℚ)) (metas0 : List (Option String)) :
    ∀ (ids : List String) (i : ℕ) (l : List MatchResult),
      chroma_rows d0 metas0 ids i = some l → l.length = ids.length := by
  intro ids
  induction ids with
  | nil =>
      intro i l h
      simp only [chroma_rows, Option.some.injEq] at h
      simp [← h]
  | cons docId rest ih =>
      intro i l h
      simp only [chroma_rows] at h
      cases d0 with
      | none =>
          dsimp only at h
          cases hrec : chroma_rows none metas0 rest (i + 1) with
          | none => rw [hrec] at h; simp at h
          | some tail =>
              rw [hrec] at h
              simp only [Option.some.injEq] at h
              rw [← h]
              simp [ih _ _ hrec]
      | some ds =>
          dsimp only at h
          cases hd : ds.get? i with
          | none => rw [hd] at h; simp at h
          | some dist =>
              rw [hd] at h
              dsimp only at h
              cases hrec : chroma_rows (some ds) metas0 rest (i + 1) with
              | none => rw [hrec] at h; simp at h
              | some tail =>
                  rw [hrec] at h
                  simp only [Option.some.injEq] at h
                  rw [← h]
                  simp [ih _ _ hrec]

/-- The similarity strings the chroma row loop produces: the distance segment
starting at the loop index, clamped and formatted. -/
theorem chroma_rows_sims (d0 : List ℚ) (metas0 : List (Option String)) :
    ∀ (ids : List String) (i : ℕ) (l : List MatchResult),
      chroma_rows (some d0) metas0 ids i = some l →
      l.map (·.similarity)
        = ((d0.drop i).take ids.length).map
            (fun d => percentStr (pctOfScore (max 0 (min 1 (1 - d))))) := by
  intro ids
  induction ids with
  | nil =>
      intro i l h
      simp only [chroma_rows, Option.some.injEq] at h
      simp [← h]
  | cons docId rest ih =>
      intro i l h
      simp only [chroma_rows] at h
      try dsimp only at h
      cases hd : d0.get? i with
      | none => rw [hd] at h; simp at h
      | some dist =>
          rw [hd] at h
          dsimp only at h
          cases hrec : chroma_rows (some d0) metas0 rest (i + 1) with
          | none => rw [hrec] at h; simp at h
          | some tail =>
              rw [hrec] at h
              simp only [Option.some.injEq] at h
              have hi : i < d0.length := by
                by_contra hge
                rw [List.get?_eq_getElem?, List.getElem?_eq_none (by omega)] at hd
                exact absurd hd (by simp)
              have hdi : d0[i] = dist := by
                have hge := List.getElem?_eq_getElem hi
                rw [List.get?_eq_getElem?, hge] at hd
                exact Option.some.inj hd
              have hdrop : d0.drop i = dist :: d0.drop (i + 1) := by
                rw [List.drop_eq_getElem_cons hi, hdi]
              rw [← h, hdrop, List.length_cons, List.take_succ_cons,
                  List.map_cons, List.map_cons, ih _ _ hrec]

/-- `query_similar` meets the ranked contract for every requested size, under
the library's answer contract. -/
theorem rankedOk_query_similar (coll : ChromaColl) (qe : List ℚ) (n : ℕ)
    (hwf : ChromaWF coll) : RankedOk n (query_similar coll qe n) := by
  unfold query_similar
  split
  · exact rankedOk_nil n
  · rename_i hq
    split
    · exact rankedOk_nil n
    · rename_i hcount
      have hmin : 1 ≤ min n coll.count := by
        push_neg at hq
        omega
      obtain ⟨ids0, metas0, d0, hquery, hlen, hlend, hpair⟩ := hwf _ hmin
      rw [hquery]
      simp only [List.head?_cons, Option.getD_some]
      try dsimp only
      by_cases hne : ids0 = []
      · rw [if_pos hne]
        exact rankedOk_nil n
      · rw [if_neg hne]
        cases d0 with
        | nil =>
            exact absurd (List.length_eq_zero.mp (by simpa using hlend.symm)) hne
        | cons d ds =>
            dsimp only
            cases hrows : chroma_rows (some (d :: ds)) metas0 ids0 0 with
            | none =>
                exact rankedOk_nil n
            | some l =>
                simp only [Option.getD_some]
                refine ⟨?_, ((d :: ds).take ids0.length).map
                    (fun dd => pctOfScore (max 0 (min 1 (1 - dd)))), ?_, ?_, ?_⟩
                · rw [chroma_rows_length _ _ _ _ _ hrows]
                  omega
                · have hs := chroma_rows_sims (d :: ds) metas0 ids0 0 l hrows
                  rw [List.drop_zero] at hs
                  rw [hs, List.map_map]
                  rfl
                · refine List.Pairwise.map _ ?_
                    (List.Pairwise.sublist (List.take_sublist _ _) hpair)
                  intro a b hab
                  exact chromaPct_antitone hab
                · intro m hm
                  rw [List.mem_map] at hm
                  obtain ⟨dd, _, rfl⟩ := hm
                  exact ⟨pctOfScore_nonneg _, pctOfScore_le_100 _⟩

/-- C1 counterexample: at `top_k = 0` the TF-IDF tier returns the whole ranked
corpus (the numpy slice `[-0:]` is the full array), so the answer can be
longer than `top_k`. -/
theorem c1_counterexample :
    (find_similar_cases envWit stTfidfOne "q" 0).2
      = [⟨"HC-001", "Case 1", percentStr (pctOfScore 1)⟩] ∧
    ¬((find_similar_cases envWit stTfidfOne "q" 0).2.length ≤ 0) := by
  have h : (find_similar_cases envWit stTfidfOne "q" 0).2
      = [⟨"HC-001", "Case 1", percentStr (pctOfScore 1)⟩] := rfl
  refine ⟨h, ?_⟩
  rw [h]
  simp

/-- C1 (amended): for every matcher state (any tier), environment, and query,
and every `top_k ≥ 1` — at `top_k = 0` the lexical tier answers with the whole
corpus, see the counterexample — `find_similar_cases` returns at most `top_k`
Match Results, each `similarity` the string of an integer percentage in
`0..100`, ordered non-increasing, assuming the Chroma library answers queries
with ascending distances, one per id, and at most the requested count. -/
theorem c1_find_similar_ranked (env : MatcherEnv) (st : MatcherState)
    (q : String) (k : ℕ) (hk : k ≠ 0) (hwf : ChromaWF env.chroma) :
    RankedOk k (find_similar_cases env st q k).2 := by
  unfold find_similar_cases find_similar_cases_core
  dsimp only
  repeat' split
  all_goals
    first
      | exact rankedOk_nil k
      | exact rankedOk_query_similar _ _ _ hwf
      | exact rankedOk_in_memory _ _ _
      | exact rankedOk_tfidf _ _ _ hk

/-- C1 witness: the ranked contract instantiated on the chroma tier at
`top_k = 5` with a concrete one-document collection. -/
theorem c1_witness : RankedOk 5 (find_similar_cases envWit stChromaWit "hello" 5).2 := by
  refine c1_find_similar_ranked envWit stChromaWit "hello" 5 (by decide) ?_
  intro n hn
  refine ⟨["HC-001"], [some "Case 1"], [0], ?_, ?_, rfl, ?_⟩
  · show collWit.query n = _
    unfold collWit
    dsimp only
    rw [if_neg (by omega)]
  · simpa using hn
  · simp

/-- The retry loop's discipline, by induction on the remaining iterations:
at least one and at most `remaining` invocations; the first invocation gets
the entry state; invocation `i+1` happens only because invocation `i` ended
with a truthy error or raised, and resumes from exactly the state that
outcome leaves (error recorded in the step log, retry count bumped); and the
final state is the outcome of the last invocation.  The arithmetic
hypotheses say the loop still has enough fuel to reach its break. -/
theorem run_loop_spec (invoke : ℕ → WorkflowState → Except String WorkflowState) :
    ∀ (r attempt : ℕ) (last : WorkflowState), 1 ≤ r → MAX_RETRIES < attempt + r →
      1 ≤ (run_loop invoke attempt r last).2.length ∧
      (run_loop invoke attempt r last).2.length ≤ r ∧
      (run_loop invoke attempt r last).2.head? = some last ∧
      (∀ i s s', (run_loop invoke attempt r last).2.get? i = some s →
         (run_loop invoke attempt r last).2.get? (i + 1) = some s' →
         nextOf invoke (attempt + i) s s') ∧
      (∃ s, (run_loop invoke attempt r last).2.get?
            ((run_loop invoke attempt r last).2.length - 1) = some s ∧
         (run_loop invoke attempt r last).1
           = finalOf invoke (attempt + ((run_loop invoke attempt r last).2.length - 1)) s) := by
  intro r
  induction r with
  | zero =>
      intro attempt last h1 h2
      omega
  | succ m ih =>
      intro attempt last h1 h2
      rw [run_loop]
      cases hinv : invoke attempt last with
      | ok st =>
          dsimp only
          by_cases hcond : errTruthy st.error = true ∧ attempt < MAX_RETRIES
          · rw [if_pos hcond]
            dsimp only
            have hm1 : 1 ≤ m := by
              have hc2 := hcond.2
              simp only [MAX_RETRIES] at hc2 h2
              omega
            have hm2 : MAX_RETRIES < (attempt + 1) + m := by
              simp only [MAX_RETRIES] at h2 ⊢
              omega
            obtain ⟨ih1, ih2, ih3, ih4, s0, ih5, ih6⟩ :=
              ih (attempt + 1) { st with retry_count := st.retry_count + 1 } hm1 hm2
            refine ⟨by simp, by simpa using ih2, rfl, ?_, ?_⟩
            · intro i s s' hs hs'
              cases i with
              | zero =>
                  simp only [List.get?_cons_zero, Option.some.injEq] at hs
                  simp only [List.get?_cons_succ] at hs'
                  cases htr : (run_loop invoke (attempt + 1) m
                      { st with retry_count := st.retry_count + 1 }).2 with
                  | nil => rw [htr] at hs'; simp at hs'
                  | cons a t =>
                      rw [htr] at hs'
                      simp only [List.get?_cons_zero, Option.some.injEq] at hs'
                      rw [htr] at ih3
                      simp only [List.head?_cons, Option.some.injEq] at ih3
                      rw [Nat.add_zero, ← hs, ← hs', ih3]
                      exact Or.inl ⟨st, hinv, hcond.1, rfl⟩
              | succ i =>
                  simp only [List.get?_cons_succ] at hs hs'
                  have hni := ih4 i s s' hs hs'
                  have harith : attempt + 1 + i = attempt + (i + 1) := by omega
                  rw [harith] at hni
                  exact hni
            · refine ⟨s0, ?_, ?_⟩
              · have hlen : (last :: (run_loop invoke (attempt + 1) m
                    { st with retry_count := st.retry_count + 1 }).2).length - 1
                    = ((run_loop invoke (attempt + 1) m
                        { st with retry_count := st.retry_count + 1 }).2.length - 1) + 1 := by
                  simp only [List.length_cons]
                  omega
                rw [hlen, List.get?_cons_succ]
                exact ih5
              · rw [ih6]
                congr 1
                simp only [List.length_cons]
                omega
          · rw [if_neg hcond]
            refine ⟨by simp, by simp, rfl, ?_, ?_⟩
            · intro i s s' _ hs'
              cases i <;> simp at hs'
            · refine ⟨last, rfl, ?_⟩
              simp only [List.length_cons, List.length_nil, Nat.zero_add, Nat.sub_self,
                Nat.add_zero]
              unfold finalOf
              rw [hinv]
      | error e =>
          dsimp only
          by_cases hge : MAX_RETRIES ≤ attempt
          · rw [if_pos hge]
            refine ⟨by simp, by simp, rfl, ?_, ?_⟩
            · intro i s s' _ hs'
              cases i <;> simp at hs'
            · refine ⟨last, rfl, ?_⟩
              simp only [List.length_cons, List.length_nil, Nat.zero_add, Nat.sub_self,
                Nat.add_zero]
              unfold finalOf
              rw [hinv]
          · rw [if_neg hge]
            dsimp only
            have hm1 : 1 ≤ m := by
              simp only [MAX_RETRIES] at h2 hge
              omega
            have hm2 : MAX_RETRIES < (attempt + 1) + m := by
              simp only [MAX_RETRIES] at h2 ⊢
              omega
            obtain ⟨ih1, ih2, ih3, ih4, s0, ih5, ih6⟩ :=
              ih (attempt + 1) (recordAndBump last e) hm1 hm2
            refine ⟨by simp, by simpa using ih2, rfl, ?_, ?_⟩
            · intro i s s' hs hs'
              cases i with
              | zero =>
                  simp only [List.get?_cons_zero, Option.some.injEq] at hs
                  simp only [List.get?_cons_succ] at hs'
                  cases htr : (run_loop invoke (attempt + 1) m
                      (recordAndBump last e)).2 with
                  | nil => rw [htr] at hs'; simp at hs'
                  | cons a t =>
                      rw [htr] at hs'
                      simp only [List.get?_cons_zero, Option.some.injEq] at hs'
                      rw [htr] at ih3
                      simp only [List.head?_cons, Option.some.injEq] at ih3
                      rw [Nat.add_zero, ← hs, ← hs', ih3]
                      exact Or.inr ⟨e, hinv, rfl⟩
              | succ i =>
                  simp only [List.get?_cons_succ] at hs hs'
                  have hni := ih4 i s s' hs hs'
                  have harith : attempt + 1 + i = attempt + (i + 1) := by omega
                  rw [harith] at hni
                  exact hni
            · refine ⟨s0, ?_, ?_⟩
              · have hlen : (last :: (run_loop invoke (attempt + 1) m
                    (recordAndBump last e)).2).length - 1
                    = ((run_loop invoke (attempt + 1) m
                        (recordAndBump last e)).2.length - 1) + 1 := by
                  simp only [List.length_cons]
                  omega
                rw [hlen, List.get?_cons_succ]
                exact ih5
              · rw [ih6]
                congr 1
                simp only [List.length_cons]
                omega

/-- C4: the runner invokes the graph at least once and at most
`1 + MAX_RETRIES` (= 3) times; the first invocation starts from the initial
state; a further invocation happens only when the previous one left a truthy
`error` or raised, and it resumes from that very outcome state — the error
recorded as a `runner` step-log entry and `retry_count` bumped — not from the
original input; the final state is the outcome of the last invocation
(including the recorded exception when the last attempt raised); and the
runner always returns the assembled result dict built from that final state,
never raising.  The invocation trace `(run_loop ...).2` lists the state passed
to each graph invocation. -/
theorem c4_runner_retry_discipline (invoke : ℕ → WorkflowState → Except String WorkflowState)
    (today sid : String) (inp : ProcessedData) :
    1 ≤ (run_loop invoke 0 (MAX_RETRIES + 1) (initialState sid inp)).2.length ∧
    (run_loop invoke 0 (MAX_RETRIES + 1) (initialState sid inp)).2.length ≤ MAX_RETRIES + 1 ∧
    (run_loop invoke 0 (MAX_RETRIES + 1) (initialState sid inp)).2.head?
      = some (initialState sid inp) ∧
    (∀ i s s',
      (run_loop invoke 0 (MAX_RETRIES + 1) (initialState sid inp)).2.get? i = some s →
      (run_loop invoke 0 (MAX_RETRIES + 1) (initialState sid inp)).2.get? (i + 1) = some s' →
      nextOf invoke i s s') ∧
    (∃ s, (run_loop invoke 0 (MAX_RETRIES + 1) (initialState sid inp)).2.get?
          ((run_loop invoke 0 (MAX_RETRIES + 1) (initialState sid inp)).2.length - 1)
          = some s ∧
      (run_loop invoke 0 (MAX_RETRIES + 1) (initialState sid inp)).1
        = finalOf invoke
            ((run_loop invoke 0 (MAX_RETRIES + 1) (initialState sid inp)).2.length - 1) s) ∧
    run_scenario_workflow invoke today sid inp
      = mkResult today sid (run_loop invoke 0 (MAX_RETRIES + 1) (initialState sid inp)).1 := by
  have h := run_loop_spec invoke (MAX_RETRIES + 1) 0 (initialState sid inp)
    (by omega) (by omega)
  obtain ⟨h1, h2, h3, h4, s0, h5, h6⟩ := h
  refine ⟨h1, h2, h3, ?_, ⟨s0, h5, ?_⟩, rfl⟩
  · intro i s s' hs hs'
    have hn := h4 i s s' hs hs'
    rwa [Nat.zero_add] at hn
  · rwa [Nat.zero_add] at h6

/-- C4 witness: with an oracle that raises on attempt 1 and succeeds on
attempt 2, the second invocation resumes from the recorded-and-bumped state
(the chain property instantiated at the first step of the concrete trace). -/
theorem c4_witness :
    nextOf invokeWit 0 (initialState "S" pWit)
      (recordAndBump (initialState "S" pWit) "boom") :=
  (c4_runner_retry_discipline invokeWit "2026-01-01" "S" pWit).2.2.2.1 0
    (initialState "S" pWit) (recordAndBump (initialState "S" pWit) "boom") rfl rfl
